import Mathlib

/-
  Shallow embedding of the circuit-breaker repository (Go).

  Modelling conventions:
  - time.Time and time.Duration are modelled as Int (an abstract clock tick);
    time.Since(t) observed inside an operation called at instant now is now - t.
    Each public operation that reads the clock takes its observation instant
    now as an explicit argument.
  - Go dynamic values (the any arguments of the Check methods) are modelled by
    the inductive GoValue, one constructor per dynamic kind the code mentions,
    plus vNil and vString for kinds no type switch recognizes.
  - float64 / float32 carriers are modelled as Rat; only the shape dispatch of
    the type switches matters for the claims, never float rounding.
  - Mutation through a pointer is modelled by returning the updated value:
    SlidingWindowThreshold.Check returns (answer, pruned threshold), and the
    breaker threads updated thresholds through its own record of them, which
    matches the pointer aliasing in the source (the Switch holds the same
    pointer as the breaker's threshold field).
-/

namespace CircuitBreakerModel

/-- Dynamic (interface) values passed to Check, one constructor per Go kind. -/
inductive GoValue where
  | vInt (n : Int)
  | vInt64 (n : Int)
  | vFloat64 (x : Rat)
  | vFloat32 (x : Rat)
  | vString (s : String)
  | vNil
  | vStruct (successes failures total : Int)
deriving DecidableEq

/-- The three process-wide state tokens of core.go. -/
def StateClosed : String := "closed"

def StateOpened : String := "open"

def StateHalfOpen : String := "half-open"

/-- Int64Threshold from the threshold implementations file. -/
structure Int64Threshold where
  threshold : Int
deriving DecidableEq

/-- Int64Threshold.Check: type switch over int64 and int; default false. -/
def Int64Threshold.Check (t : Int64Threshold) (value : GoValue) : Bool :=
  match value with
  | .vInt64 v => t.threshold ≤ v
  | .vInt v => t.threshold ≤ v
  | _ => false

def Int64Threshold.GetThreshold (t : Int64Threshold) : GoValue :=
  .vInt64 t.threshold

/-- Float64Threshold from the threshold implementations file. -/
structure Float64Threshold where
  threshold : Rat
deriving DecidableEq

/-- Float64Threshold.Check: type switch over float64, float32, int, int64;
default false. -/
def Float64Threshold.Check (t : Float64Threshold) (value : GoValue) : Bool :=
  match value with
  | .vFloat64 v => t.threshold ≤ v
  | .vFloat32 v => t.threshold ≤ v
  | .vInt v => t.threshold ≤ (v : Rat)
  | .vInt64 v => t.threshold ≤ (v : Rat)
  | _ => false

def Float64Threshold.GetThreshold (t : Float64Threshold) : GoValue :=
  .vFloat64 t.threshold

/-- SlidingWindowThreshold from sliding_window.go.  failureTimes is the
ordered list of recorded failure instants. -/
structure SlidingWindowThreshold where
  windowSize : Int
  maxFailures : Int
  name : String
  failureTimes : List Int
deriving DecidableEq

/-- NewSlidingWindowThreshold from sliding_window.go. -/
def NewSlidingWindowThreshold (windowSize : Int) (maxFailures : Int)
    (name : String) : SlidingWindowThreshold :=
  { windowSize := windowSize, maxFailures := maxFailures, name := name,
    failureTimes := [] }

/-- SlidingWindowThreshold.Check: prunes failureTimes to instants strictly
after now - windowSize (ft.After(windowStart)), stores the pruned list, and
answers whether its length meets maxFailures.  The value argument is ignored
by the source.  Returns the answer together with the mutated threshold. -/
def SlidingWindowThreshold.Check (sw : SlidingWindowThreshold)
    (value : GoValue) (now : Int) : Bool × SlidingWindowThreshold :=
  let windowStart := now - sw.windowSize
  let validFailures := sw.failureTimes.filter (fun ft => windowStart < ft)
  let sw' := { sw with failureTimes := validFailures }
  (sw.maxFailures ≤ (validFailures.length : Int), sw')

/-- SlidingWindowThreshold.RecordFailure: appends the current instant. -/
def SlidingWindowThreshold.RecordFailure (sw : SlidingWindowThreshold)
    (now : Int) : SlidingWindowThreshold :=
  { sw with failureTimes := sw.failureTimes ++ [now] }

/-- SlidingWindowThreshold.GetCurrentFailures: the stored count, unpruned. -/
def SlidingWindowThreshold.GetCurrentFailures
    (sw : SlidingWindowThreshold) : Int :=
  (sw.failureTimes.length : Int)

/-- CustomThreshold: the closed set of shipped Threshold implementations
(the Go interface, restricted to the variants present in the repository). -/
inductive CustomThreshold where
  | int64T (t : Int64Threshold)
  | float64T (t : Float64Threshold)
  | slidingWindow (sw : SlidingWindowThreshold)
deriving DecidableEq

/-- Dispatching an interface Check call to the concrete implementation.
Only the sliding-window variant reads the clock or mutates itself. -/
def CustomThreshold.Check (t : CustomThreshold) (value : GoValue)
    (now : Int) : Bool × CustomThreshold :=
  match t with
  | .int64T ti => (ti.Check value, t)
  | .float64T tf => (tf.Check value, t)
  | .slidingWindow sw =>
    let r := sw.Check value now
    (r.1, .slidingWindow r.2)

/-- CustomSwitch holds one threshold; its Check forwards to it.  The held
reference aliases the breaker's threshold field in the source, so the
forwarded call returns the updated threshold. -/
structure CustomSwitch where
  threshold : CustomThreshold

/-- CustomSwitch.Check forwards to the held threshold. -/
def CustomSwitch.Check (s : CustomSwitch) (value : GoValue)
    (now : Int) : Bool × CustomThreshold :=
  s.threshold.Check value now

/-- ChooseSwitch wraps any threshold in a CustomSwitch. -/
def ChooseSwitch (threshold : CustomThreshold) : CustomSwitch :=
  { threshold := threshold }

/-- CircuitBreaker from core.go.  The failureSwitch / successSwitch fields of
the source always hold exactly ChooseSwitch of the corresponding threshold
field (both in the constructor and in UpdateValues), so they are derived
rather than stored. -/
structure CircuitBreaker where
  failures : Int
  successes : Int
  state : String
  lastStateChange : Int
  failureThreshold : CustomThreshold
  successThreshold : CustomThreshold
  openedTimeout : Int
deriving DecidableEq

/-- NewCircuitBreaker: starts Closed with zero counters (Go zero values),
stamping lastStateChange with the construction instant. -/
def NewCircuitBreaker (failureThreshold successThreshold : CustomThreshold)
    (openedTimeout : Int) (now : Int) : CircuitBreaker :=
  { failures := 0, successes := 0, state := StateClosed,
    lastStateChange := now, failureThreshold := failureThreshold,
    successThreshold := successThreshold, openedTimeout := openedTimeout }

/-- UpdateValues: replaces both thresholds (and hence both switches) and the
timeout; touches nothing else. -/
def UpdateValues (cb : CircuitBreaker)
    (newFailure newSuccess : CustomThreshold)
    (newTimeout : Int) : CircuitBreaker :=
  { cb with
    failureThreshold := newFailure
    successThreshold := newSuccess
    openedTimeout := newTimeout }

/-- resetCounters from core.go. -/
def resetCounters (cb : CircuitBreaker) : CircuitBreaker :=
  { cb with failures := 0, successes := 0 }

/-- Allow: lazily performs the Open to HalfOpen transition when
time.Since(lastStateChange) > openedTimeout, then answers state != Open. -/
def Allow (cb : CircuitBreaker) (now : Int) : Bool × CircuitBreaker :=
  let cb :=
    if cb.state = StateOpened ∧ cb.openedTimeout < now - cb.lastStateChange
    then resetCounters
      { cb with state := StateHalfOpen, lastStateChange := now }
    else cb
  (cb.state ≠ StateOpened, cb)

/-- calculateCheckValue: type switch on the installed threshold variant. -/
def calculateCheckValue (cb : CircuitBreaker) (counter : Int)
    (threshold : CustomThreshold) : GoValue :=
  match threshold with
  | .int64T _ => .vInt64 counter
  | .float64T _ =>
    let total := cb.successes + cb.failures
    if total = 0 then .vFloat64 0
    else .vFloat64 ((counter : Rat) / (total : Rat))
  | _ =>
    .vStruct cb.successes cb.failures (cb.successes + cb.failures)

/-- RecordSuccess from core.go.  In HalfOpen the success switch is consulted
after the increment; a true answer closes the breaker, resets the counters
and stamps lastStateChange. -/
def RecordSuccess (cb : CircuitBreaker) (now : Int) : CircuitBreaker :=
  if cb.state = StateClosed then
    { cb with successes := cb.successes + 1, failures := 0 }
  else if cb.state = StateHalfOpen then
    let cb := { cb with successes := cb.successes + 1, failures := 0 }
    let checkValue := calculateCheckValue cb cb.successes cb.successThreshold
    let r := (ChooseSwitch cb.successThreshold).Check checkValue now
    let cb := { cb with successThreshold := r.2 }
    if r.1 then
      resetCounters { cb with state := StateClosed, lastStateChange := now }
    else cb
  else cb

/-- RecordFailure from core.go.  In Closed the failure switch is consulted
after the increment; a true answer opens the breaker.  In HalfOpen any
failure opens the breaker unconditionally. -/
def RecordFailure (cb : CircuitBreaker) (now : Int) : CircuitBreaker :=
  if cb.state = StateClosed then
    let cb := { cb with failures := cb.failures + 1, successes := 0 }
    let checkValue := calculateCheckValue cb cb.failures cb.failureThreshold
    let r := (ChooseSwitch cb.failureThreshold).Check checkValue now
    let cb := { cb with failureThreshold := r.2 }
    if r.1 then
      resetCounters { cb with state := StateOpened, lastStateChange := now }
    else cb
  else if cb.state = StateHalfOpen then
    resetCounters { cb with state := StateOpened, lastStateChange := now }
  else cb

/-- State from core.go: same lazy transition as Allow, then the state tag. -/
def State (cb : CircuitBreaker) (now : Int) : String × CircuitBreaker :=
  let cb :=
    if cb.state = StateOpened ∧ cb.openedTimeout < now - cb.lastStateChange
    then resetCounters
      { cb with state := StateHalfOpen, lastStateChange := now }
    else cb
  (cb.state, cb)

/-- Folding a run of RecordFailure calls, one observation instant each. -/
def recordFailures (cb : CircuitBreaker) (ts : List Int) : CircuitBreaker :=
  ts.foldl RecordFailure cb

/-- Folding a run of RecordSuccess calls, one observation instant each. -/
def recordSuccesses (cb : CircuitBreaker) (ts : List Int) : CircuitBreaker :=
  ts.foldl RecordSuccess cb

/-- One external event on a standalone SlidingWindowThreshold. -/
inductive SWEvent where
  | recordFailure (now : Int)
  | check (now : Int)
deriving DecidableEq

/-- Interpreting one sliding-window event. -/
def swStep (sw : SlidingWindowThreshold) (e : SWEvent) :
    SlidingWindowThreshold :=
  match e with
  | .recordFailure now => sw.RecordFailure now
  | .check now => (sw.Check .vNil now).2

/-- Interpreting a sliding-window event trace. -/
def runSW (sw : SlidingWindowThreshold) (es : List SWEvent) :
    SlidingWindowThreshold :=
  es.foldl swStep sw

/-- The instants of the RecordFailure events of a trace, in order. -/
def recordedTimes (es : List SWEvent) : List Int :=
  es.filterMap (fun e =>
    match e with
    | .recordFailure t => some t
    | .check _ => none)

/-- How many RecordFailure events of the trace fall strictly inside the
trailing window of size w before instant now. -/
def countInWindow (es : List SWEvent) (now w : Int) : Int :=
  (((recordedTimes es).filter (fun t => now - w < t)).length : Int)

/-- One public operation on the breaker, with its observation instant. -/
inductive CBEvent where
  | allow (now : Int)
  | recordSuccess (now : Int)
  | recordFailure (now : Int)
  | state (now : Int)
  | updateValues (f s : CustomThreshold) (t : Int)
deriving DecidableEq

/-- Interpreting one breaker event. -/
def cbStep (cb : CircuitBreaker) (e : CBEvent) : CircuitBreaker :=
  match e with
  | .allow now => (Allow cb now).2
  | .recordSuccess now => RecordSuccess cb now
  | .recordFailure now => RecordFailure cb now
  | .state now => (State cb now).2
  | .updateValues f s t => UpdateValues cb f s t

/-- Interpreting a breaker event trace. -/
def runCB (cb : CircuitBreaker) (es : List CBEvent) : CircuitBreaker :=
  es.foldl cbStep cb

/-! Small facts about the three state tokens. -/

theorem stateClosed_ne_opened : StateClosed ≠ StateOpened := by decide

theorem stateHalfOpen_ne_closed : StateHalfOpen ≠ StateClosed := by decide

theorem stateHalfOpen_ne_opened : StateHalfOpen ≠ StateOpened := by decide

theorem stateOpened_ne_closed : StateOpened ≠ StateClosed := by decide

theorem stateOpened_ne_halfOpen : StateOpened ≠ StateHalfOpen := by decide

/-- Claim C6: while the breaker is HalfOpen, one RecordFailure call moves it
to Open, whatever the counters hold (in particular however many successes the
HalfOpen episode accumulated), resets both counters to 0 and stamps
lastStateChange with the call instant. -/
theorem half_open_single_failure_reopens (cb : CircuitBreaker) (now : Int)
    (h : cb.state = StateHalfOpen) :
    (RecordFailure cb now).state = StateOpened ∧
    (RecordFailure cb now).failures = 0 ∧
    (RecordFailure cb now).successes = 0 ∧
    (RecordFailure cb now).lastStateChange = now := by
  unfold RecordFailure
  rw [h, if_neg stateHalfOpen_ne_closed, if_pos rfl]
  exact ⟨rfl, rfl, rfl, rfl⟩

/-- Witness for C6: a HalfOpen breaker with three recorded successes reopens
on one failure. -/
theorem half_open_single_failure_reopens_witness :
    (RecordFailure
      { failures := 0, successes := 3, state := StateHalfOpen,
        lastStateChange := 5,
        failureThreshold := .int64T ⟨2⟩, successThreshold := .int64T ⟨5⟩,
        openedTimeout := 100 } 42).state = StateOpened ∧
    (RecordFailure
      { failures := 0, successes := 3, state := StateHalfOpen,
        lastStateChange := 5,
        failureThreshold := .int64T ⟨2⟩, successThreshold := .int64T ⟨5⟩,
        openedTimeout := 100 } 42).failures = 0 ∧
    (RecordFailure
      { failures := 0, successes := 3, state := StateHalfOpen,
        lastStateChange := 5,
        failureThreshold := .int64T ⟨2⟩, successThreshold := .int64T ⟨5⟩,
        openedTimeout := 100 } 42).successes = 0 ∧
    (RecordFailure
      { failures := 0, successes := 3, state := StateHalfOpen,
        lastStateChange := 5,
        failureThreshold := .int64T ⟨2⟩, successThreshold := .int64T ⟨5⟩,
        openedTimeout := 100 } 42).lastStateChange = 42 :=
  half_open_single_failure_reopens _ 42 rfl

/-- Claim C7: UpdateValues swaps both thresholds and the timeout and leaves
the state tag, both counters and lastStateChange untouched; later threshold
evaluations therefore read the new configuration. -/
theorem update_values_only_swaps_configuration (cb : CircuitBreaker)
    (newFailure newSuccess : CustomThreshold) (newTimeout : Int) :
    (UpdateValues cb newFailure newSuccess newTimeout).state = cb.state ∧
    (UpdateValues cb newFailure newSuccess newTimeout).failures =
      cb.failures ∧
    (UpdateValues cb newFailure newSuccess newTimeout).successes =
      cb.successes ∧
    (UpdateValues cb newFailure newSuccess newTimeout).lastStateChange =
      cb.lastStateChange ∧
    (UpdateValues cb newFailure newSuccess newTimeout).failureThreshold =
      newFailure ∧
    (UpdateValues cb newFailure newSuccess newTimeout).successThreshold =
      newSuccess ∧
    (UpdateValues cb newFailure newSuccess newTimeout).openedTimeout =
      newTimeout :=
  ⟨rfl, rfl, rfl, rfl, rfl, rfl, rfl⟩

/-- Counterexample to claim C2 as stated: a breaker opened at instant 0 with
openedTimeout 100 is probed by Allow at instant 100, i.e. when exactly
openedTimeout has elapsed.  The claim says this first call returns true and
flips the state to HalfOpen; the code compares with strict inequality, so the
call returns false and the breaker stays Open. -/
theorem allow_exact_timeout_still_blocked :
    (recordFailures
      (NewCircuitBreaker (.int64T ⟨2⟩) (.int64T ⟨1⟩) 100 0)
      [0, 0]).state = StateOpened ∧
    (recordFailures
      (NewCircuitBreaker (.int64T ⟨2⟩) (.int64T ⟨1⟩) 100 0)
      [0, 0]).lastStateChange = 0 ∧
    (Allow (recordFailures
      (NewCircuitBreaker (.int64T ⟨2⟩) (.int64T ⟨1⟩) 100 0)
      [0, 0]) 100).1 = false ∧
    (Allow (recordFailures
      (NewCircuitBreaker (.int64T ⟨2⟩) (.int64T ⟨1⟩) 100 0)
      [0, 0]) 100).2.state = StateOpened := by
  decide

/-- Claim C2 as amended: while Open, Allow returns false and changes nothing
as long as the elapsed time is at most openedTimeout; on any call strictly
after openedTimeout has elapsed it returns true, and that call flips the
state to HalfOpen, resets both counters and stamps lastStateChange. -/
theorem allow_open_blocks_until_strictly_after_timeout
    (cb : CircuitBreaker) (now : Int) (h : cb.state = StateOpened) :
    (now - cb.lastStateChange ≤ cb.openedTimeout →
      (Allow cb now).1 = false ∧ (Allow cb now).2 = cb) ∧
    (cb.openedTimeout < now - cb.lastStateChange →
      (Allow cb now).1 = true ∧
      (Allow cb now).2.state = StateHalfOpen ∧
      (Allow cb now).2.failures = 0 ∧
      (Allow cb now).2.successes = 0 ∧
      (Allow cb now).2.lastStateChange = now) := by
  constructor
  · intro hle
    unfold Allow
    rw [if_neg (fun hand => absurd hand.2 (not_lt.mpr hle))]
    dsimp only
    exact ⟨by simp [h, StateOpened], rfl⟩
  · intro hlt
    unfold Allow
    rw [if_pos ⟨h, hlt⟩]
    dsimp only [resetCounters]
    exact ⟨by decide, rfl, rfl, rfl, rfl⟩

/-- Witness for the amended C2: breaker opened at 0 with timeout 100; Allow
at 100 blocks and changes nothing, Allow at 101 admits and flips to
HalfOpen. -/
theorem allow_open_blocks_until_strictly_after_timeout_witness :
    ((Allow
      { failures := 0, successes := 0, state := StateOpened,
        lastStateChange := 0,
        failureThreshold := .int64T ⟨2⟩, successThreshold := .int64T ⟨1⟩,
        openedTimeout := 100 } 100).1 = false ∧
      (Allow
        { failures := 0, successes := 0, state := StateOpened,
          lastStateChange := 0,
          failureThreshold := .int64T ⟨2⟩, successThreshold := .int64T ⟨1⟩,
          openedTimeout := 100 } 100).2 =
        { failures := 0, successes := 0, state := StateOpened,
          lastStateChange := 0,
          failureThreshold := .int64T ⟨2⟩, successThreshold := .int64T ⟨1⟩,
          openedTimeout := 100 }) ∧
    ((Allow
      { failures := 0, successes := 0, state := StateOpened,
        lastStateChange := 0,
        failureThreshold := .int64T ⟨2⟩, successThreshold := .int64T ⟨1⟩,
        openedTimeout := 100 } 101).1 = true ∧
      (Allow
        { failures := 0, successes := 0, state := StateOpened,
          lastStateChange := 0,
          failureThreshold := .int64T ⟨2⟩, successThreshold := .int64T ⟨1⟩,
          openedTimeout := 100 } 101).2.state = StateHalfOpen ∧
      (Allow
        { failures := 0, successes := 0, state := StateOpened,
          lastStateChange := 0,
          failureThreshold := .int64T ⟨2⟩, successThreshold := .int64T ⟨1⟩,
          openedTimeout := 100 } 101).2.failures = 0 ∧
      (Allow
        { failures := 0, successes := 0, state := StateOpened,
          lastStateChange := 0,
          failureThreshold := .int64T ⟨2⟩, successThreshold := .int64T ⟨1⟩,
          openedTimeout := 100 } 101).2.successes = 0 ∧
      (Allow
        { failures := 0, successes := 0, state := StateOpened,
          lastStateChange := 0,
          failureThreshold := .int64T ⟨2⟩, successThreshold := .int64T ⟨1⟩,
          openedTimeout := 100 } 101).2.lastStateChange = 101) :=
  ⟨(allow_open_blocks_until_strictly_after_timeout _ 100 rfl).1 (by decide),
   (allow_open_blocks_until_strictly_after_timeout _ 101 rfl).2 (by decide)⟩

/-- Every single breaker operation keeps at least one counter at zero. -/
theorem cbStep_counter_disj (cb : CircuitBreaker) (e : CBEvent)
    (h : cb.failures = 0 ∨ cb.successes = 0) :
    (cbStep cb e).failures = 0 ∨ (cbStep cb e).successes = 0 := by
  cases e with
  | allow now =>
    dsimp only [cbStep]
    unfold Allow
    dsimp only
    split
    · exact Or.inl rfl
    · exact h
  | recordSuccess now =>
    dsimp only [cbStep]
    unfold RecordSuccess
    split
    · exact Or.inl rfl
    · split
      · dsimp only
        split
        · exact Or.inl rfl
        · exact Or.inl rfl
      · exact h
  | recordFailure now =>
    dsimp only [cbStep]
    unfold RecordFailure
    split
    · dsimp only
      split
      · exact Or.inl rfl
      · exact Or.inr rfl
    · split
      · exact Or.inl rfl
      · exact h
  | state now =>
    dsimp only [cbStep]
    unfold State
    dsimp only
    split
    · exact Or.inl rfl
    · exact h
  | updateValues f s t =>
    exact h

/-- Along every breaker trace at least one counter stays at zero. -/
theorem runCB_counter_disj (cb : CircuitBreaker) (es : List CBEvent)
    (h : cb.failures = 0 ∨ cb.successes = 0) :
    (runCB cb es).failures = 0 ∨ (runCB cb es).successes = 0 := by
  induction es generalizing cb with
  | nil => exact h
  | cons e es ih =>
    simp only [runCB, List.foldl_cons]
    exact ih (cbStep cb e) (cbStep_counter_disj cb e h)

/-- Counterexample to claim C4 as stated: the freshly constructed breaker
(a reachable state, before any recording) is Closed with failures = 0 and
successes = 0, so it is not the case that exactly one of the two counters is
non-zero. -/
theorem fresh_breaker_refutes_exactly_one_nonzero :
    (NewCircuitBreaker (.int64T ⟨2⟩) (.int64T ⟨1⟩) 100 0).state =
      StateClosed ∧
    ¬(((NewCircuitBreaker (.int64T ⟨2⟩) (.int64T ⟨1⟩) 100 0).failures ≠ 0 ∧
        (NewCircuitBreaker (.int64T ⟨2⟩) (.int64T ⟨1⟩) 100 0).successes
          = 0) ∨
      ((NewCircuitBreaker (.int64T ⟨2⟩) (.int64T ⟨1⟩) 100 0).failures = 0 ∧
        (NewCircuitBreaker (.int64T ⟨2⟩) (.int64T ⟨1⟩) 100 0).successes
          ≠ 0)) := by
  decide

/-- Claim C4 as amended: in every reachable breaker state at most one of the
failures / successes counters is non-zero (recording one outcome kind resets
the other counter, and the freshly built or freshly transitioned breaker has
both at zero). -/
theorem reachable_at_most_one_counter_nonzero
    (f s : CustomThreshold) (timeout start : Int) (es : List CBEvent) :
    (runCB (NewCircuitBreaker f s timeout start) es).failures = 0 ∨
    (runCB (NewCircuitBreaker f s timeout start) es).successes = 0 :=
  runCB_counter_disj _ es (Or.inl rfl)

/-- Every single breaker operation preserves: if the state tag is Open then
both counters are zero. -/
theorem cbStep_open_zero (cb : CircuitBreaker) (e : CBEvent)
    (h : cb.state = StateOpened → cb.failures = 0 ∧ cb.successes = 0) :
    (cbStep cb e).state = StateOpened →
    (cbStep cb e).failures = 0 ∧ (cbStep cb e).successes = 0 := by
  cases e with
  | allow now =>
    dsimp only [cbStep]
    unfold Allow
    dsimp only
    split
    · exact fun hst => absurd hst stateHalfOpen_ne_opened
    · exact h
  | recordSuccess now =>
    dsimp only [cbStep]
    unfold RecordSuccess
    split
    next hclosed =>
      intro hst
      rw [hclosed] at hst
      exact absurd hst stateClosed_ne_opened
    next =>
      split
      next hhalf =>
        dsimp only
        split
        · exact fun _ => ⟨rfl, rfl⟩
        · intro hst
          rw [hhalf] at hst
          exact absurd hst stateHalfOpen_ne_opened
      next => exact h
  | recordFailure now =>
    dsimp only [cbStep]
    unfold RecordFailure
    split
    next hclosed =>
      dsimp only
      split
      · exact fun _ => ⟨rfl, rfl⟩
      · intro hst
        rw [hclosed] at hst
        exact absurd hst stateClosed_ne_opened
    next =>
      split
      · exact fun _ => ⟨rfl, rfl⟩
      · exact h
  | state now =>
    dsimp only [cbStep]
    unfold State
    dsimp only
    split
    · exact fun hst => absurd hst stateHalfOpen_ne_opened
    · exact h
  | updateValues f s t =>
    exact h

/-- Along every breaker trace: whenever the state tag is Open both counters
are zero. -/
theorem runCB_open_zero (cb : CircuitBreaker) (es : List CBEvent)
    (h : cb.state = StateOpened → cb.failures = 0 ∧ cb.successes = 0) :
    (runCB cb es).state = StateOpened →
    (runCB cb es).failures = 0 ∧ (runCB cb es).successes = 0 := by
  induction es generalizing cb with
  | nil => exact h
  | cons e es ih =>
    simp only [runCB, List.foldl_cons]
    exact ih (cbStep cb e) (cbStep_open_zero cb e h)

/-- Claim C10: every reachable breaker state whose tag is Open carries
failures = 0 and successes = 0, and while Open both RecordSuccess and
RecordFailure return the breaker completely unchanged. -/
theorem open_state_zero_counters_and_inert_records
    (f s : CustomThreshold) (timeout start : Int) (es : List CBEvent)
    (cb : CircuitBreaker) (now : Int) :
    ((runCB (NewCircuitBreaker f s timeout start) es).state = StateOpened →
      (runCB (NewCircuitBreaker f s timeout start) es).failures = 0 ∧
      (runCB (NewCircuitBreaker f s timeout start) es).successes = 0) ∧
    (cb.state = StateOpened →
      RecordSuccess cb now = cb ∧ RecordFailure cb now = cb) := by
  constructor
  · exact runCB_open_zero _ es
      (fun hst => absurd hst stateClosed_ne_opened)
  · intro ho
    constructor
    · unfold RecordSuccess
      rw [ho, if_neg stateOpened_ne_closed, if_neg stateOpened_ne_halfOpen]
    · unfold RecordFailure
      rw [ho, if_neg stateOpened_ne_closed, if_neg stateOpened_ne_halfOpen]

/-- An Open breaker used to witness the inertness half of C10. -/
def openBreakerExample : CircuitBreaker :=
  { failures := 0, successes := 0, state := StateOpened,
    lastStateChange := 3,
    failureThreshold := .int64T ⟨1⟩, successThreshold := .int64T ⟨1⟩,
    openedTimeout := 100 }

/-- Witness for C10: one failure against limit 1 opens the breaker with both
counters zero, and Record calls on an Open breaker change nothing. -/
theorem open_state_zero_counters_and_inert_records_witness :
    ((runCB (NewCircuitBreaker (.int64T ⟨1⟩) (.int64T ⟨1⟩) 100 0)
        [CBEvent.recordFailure 3]).failures = 0 ∧
      (runCB (NewCircuitBreaker (.int64T ⟨1⟩) (.int64T ⟨1⟩) 100 0)
        [CBEvent.recordFailure 3]).successes = 0) ∧
    (RecordSuccess openBreakerExample 7 = openBreakerExample ∧
      RecordFailure openBreakerExample 7 = openBreakerExample) :=
  ⟨(open_state_zero_counters_and_inert_records (.int64T ⟨1⟩) (.int64T ⟨1⟩)
      100 0 [CBEvent.recordFailure 3] openBreakerExample 7).1 (by decide),
   (open_state_zero_counters_and_inert_records (.int64T ⟨1⟩) (.int64T ⟨1⟩)
      100 0 [CBEvent.recordFailure 3] openBreakerExample 7).2 rfl⟩

/-- One RecordFailure in Closed state under an integer-count failure
threshold of limit N: it trips to Open exactly when the incremented failure
count meets N, otherwise it only accumulates. -/
theorem recordFailure_closed_int64 (cb : CircuitBreaker) (N now : Int)
    (hs : cb.state = StateClosed)
    (ht : cb.failureThreshold = .int64T ⟨N⟩) :
    RecordFailure cb now =
      if N ≤ cb.failures + 1 then
        { cb with
          failures := 0
          successes := 0
          state := StateOpened
          lastStateChange := now }
      else
        { cb with failures := cb.failures + 1, successes := 0 } := by
  unfold RecordFailure
  rw [if_pos hs]
  dsimp only
  rw [ht]
  dsimp only [calculateCheckValue, ChooseSwitch, CustomSwitch.Check,
    CustomThreshold.Check, Int64Threshold.Check]
  simp only [decide_eq_true_eq]
  split
  · rfl
  · rfl

/-- A run of RecordFailure calls in Closed state that stays strictly below
the integer failure limit accumulates the count and changes nothing else. -/
theorem recordFailures_closed_below (N : Int) (us : List Int)
    (cb : CircuitBreaker)
    (hs : cb.state = StateClosed)
    (ht : cb.failureThreshold = .int64T ⟨N⟩)
    (hlt : cb.failures + us.length < N) :
    (recordFailures cb us).state = StateClosed ∧
    (recordFailures cb us).failures = cb.failures + us.length ∧
    (recordFailures cb us).failureThreshold = .int64T ⟨N⟩ ∧
    (recordFailures cb us).lastStateChange = cb.lastStateChange := by
  induction us generalizing cb with
  | nil => exact ⟨hs, by simp [recordFailures], ht, rfl⟩
  | cons u us ih =>
    simp only [List.length_cons] at hlt
    push_cast at hlt
    have hcond : ¬(N ≤ cb.failures + 1) := by omega
    have hstep := recordFailure_closed_int64 cb N u hs ht
    rw [if_neg hcond] at hstep
    simp only [recordFailures, List.foldl_cons]
    rw [hstep]
    have hlt' : cb.failures + 1 + (us.length : Int) < N := by omega
    obtain ⟨h1, h2, h3, h4⟩ :=
      ih { cb with failures := cb.failures + 1, successes := 0 } hs ht hlt'
    simp only [recordFailures] at h1 h2 h3 h4
    refine ⟨h1, ?_, h3, h4⟩
    rw [h2]
    simp only [List.length_cons]
    push_cast
    ring

/-- Claim C1: starting Closed with failure count 0 under an integer-count
failure threshold of limit N (N at least 1), a run of RecordFailure calls
keeps the breaker Closed with failures = k for every prefix of length k
strictly below N (never opening early and not touching lastStateChange), and
the prefix of length exactly N leaves the breaker Open with both counters
reset to 0 and lastStateChange stamped with the instant of that N-th call. -/
theorem closed_opens_exactly_at_failure_limit
    (cb : CircuitBreaker) (N : Int) (ts : List Int) (k : Nat)
    (hs : cb.state = StateClosed) (hf : cb.failures = 0)
    (ht : cb.failureThreshold = .int64T ⟨N⟩)
    (hN : 1 ≤ N) (hk : k ≤ ts.length) :
    ((k : Int) < N →
      (recordFailures cb (ts.take k)).state = StateClosed ∧
      (recordFailures cb (ts.take k)).failures = (k : Int) ∧
      (recordFailures cb (ts.take k)).lastStateChange =
        cb.lastStateChange) ∧
    ((k : Int) = N →
      (recordFailures cb (ts.take k)).state = StateOpened ∧
      (recordFailures cb (ts.take k)).failures = 0 ∧
      (recordFailures cb (ts.take k)).successes = 0 ∧
      ∃ hlt : k - 1 < ts.length,
        (recordFailures cb (ts.take k)).lastStateChange =
          ts.get ⟨k - 1, hlt⟩) := by
  have hlen : (ts.take k).length = k := by
    rw [List.length_take]
    exact min_eq_left hk
  constructor
  · intro hkN
    have hbelow := recordFailures_closed_below N (ts.take k) cb hs ht
      (by rw [hf, hlen]; simpa using hkN)
    refine ⟨hbelow.1, ?_, hbelow.2.2.2⟩
    rw [hbelow.2.1, hf, hlen]
    ring
  · intro hkN
    have hk1 : 1 ≤ k := by omega
    have hlt : k - 1 < ts.length := by omega
    have hksplit : k = (k - 1) + 1 := by omega
    have htake : ts.take k = ts.take (k - 1) ++ [ts.get ⟨k - 1, hlt⟩] := by
      conv_lhs => rw [hksplit]
      rw [List.take_succ, List.getElem?_eq_getElem hlt]
      rfl
    have hlen' : ((k - 1 : Nat) : Int) = N - 1 := by omega
    have hbelow := recordFailures_closed_below N (ts.take (k - 1)) cb hs ht
      (by
        rw [hf, List.length_take, min_eq_left (by omega : k - 1 ≤ ts.length)]
        omega)
    have hfold : recordFailures cb (ts.take k) =
        RecordFailure (recordFailures cb (ts.take (k - 1)))
          (ts.get ⟨k - 1, hlt⟩) := by
      rw [htake]
      simp only [recordFailures]
      rw [List.foldl_append]
      rfl
    have hstep := recordFailure_closed_int64
      (recordFailures cb (ts.take (k - 1))) N (ts.get ⟨k - 1, hlt⟩)
      hbelow.1 hbelow.2.2.1
    have hcond : N ≤ (recordFailures cb (ts.take (k - 1))).failures + 1 := by
      rw [hbelow.2.1, hf, List.length_take,
        min_eq_left (by omega : k - 1 ≤ ts.length)]
      omega
    rw [if_pos hcond] at hstep
    rw [hfold, hstep]
    exact ⟨rfl, rfl, rfl, hlt, rfl⟩

/-- Witness for C1: threshold 2, calls at instants 5 and 9; after the prefix
of length 2 the breaker is Open with zero counters, stamped at instant 9. -/
theorem closed_opens_exactly_at_failure_limit_witness :
    (recordFailures (NewCircuitBreaker (.int64T ⟨2⟩) (.int64T ⟨8⟩) 100 0)
      ([5, 9].take 2)).state = StateOpened ∧
    (recordFailures (NewCircuitBreaker (.int64T ⟨2⟩) (.int64T ⟨8⟩) 100 0)
      ([5, 9].take 2)).failures = 0 ∧
    (recordFailures (NewCircuitBreaker (.int64T ⟨2⟩) (.int64T ⟨8⟩) 100 0)
      ([5, 9].take 2)).successes = 0 ∧
    ∃ hlt : 2 - 1 < [(5 : Int), 9].length,
      (recordFailures (NewCircuitBreaker (.int64T ⟨2⟩) (.int64T ⟨8⟩) 100 0)
        ([5, 9].take 2)).lastStateChange = [(5 : Int), 9].get ⟨2 - 1, hlt⟩ :=
  (closed_opens_exactly_at_failure_limit
    (NewCircuitBreaker (.int64T ⟨2⟩) (.int64T ⟨8⟩) 100 0) 2 [5, 9] 2
    rfl rfl rfl (by decide) (by decide)).2 (by decide)

/-- One RecordSuccess in HalfOpen state under an integer-count success
threshold of limit N: it closes the breaker exactly when the incremented
success count meets N, otherwise it only accumulates. -/
theorem recordSuccess_halfOpen_int64 (cb : CircuitBreaker) (N now : Int)
    (hs : cb.state = StateHalfOpen)
    (ht : cb.successThreshold = .int64T ⟨N⟩) :
    RecordSuccess cb now =
      if N ≤ cb.successes + 1 then
        { cb with
          failures := 0
          successes := 0
          state := StateClosed
          lastStateChange := now }
      else
        { cb with successes := cb.successes + 1, failures := 0 } := by
  unfold RecordSuccess
  rw [if_neg (by rw [hs]; exact stateHalfOpen_ne_closed), if_pos hs]
  dsimp only
  rw [ht]
  dsimp only [calculateCheckValue, ChooseSwitch, CustomSwitch.Check,
    CustomThreshold.Check, Int64Threshold.Check]
  simp only [decide_eq_true_eq]
  split
  · rfl
  · rfl

/-- A run of RecordSuccess calls in HalfOpen state that stays strictly below
the integer success limit accumulates the count and changes nothing else. -/
theorem recordSuccesses_halfOpen_below (N : Int) (us : List Int)
    (cb : CircuitBreaker)
    (hs : cb.state = StateHalfOpen)
    (ht : cb.successThreshold = .int64T ⟨N⟩)
    (hlt : cb.successes + us.length < N) :
    (recordSuccesses cb us).state = StateHalfOpen ∧
    (recordSuccesses cb us).successes = cb.successes + us.length ∧
    (recordSuccesses cb us).successThreshold = .int64T ⟨N⟩ ∧
    (recordSuccesses cb us).lastStateChange = cb.lastStateChange := by
  induction us generalizing cb with
  | nil => exact ⟨hs, by simp [recordSuccesses], ht, rfl⟩
  | cons u us ih =>
    simp only [List.length_cons] at hlt
    push_cast at hlt
    have hcond : ¬(N ≤ cb.successes + 1) := by omega
    have hstep := recordSuccess_halfOpen_int64 cb N u hs ht
    rw [if_neg hcond] at hstep
    simp only [recordSuccesses, List.foldl_cons]
    rw [hstep]
    have hlt' : cb.successes + 1 + (us.length : Int) < N := by omega
    obtain ⟨h1, h2, h3, h4⟩ :=
      ih { cb with successes := cb.successes + 1, failures := 0 } hs ht hlt'
    simp only [recordSuccesses] at h1 h2 h3 h4
    refine ⟨h1, ?_, h3, h4⟩
    rw [h2]
    simp only [List.length_cons]
    push_cast
    ring

/-- Claim C5: starting HalfOpen with success count 0 under an integer-count
success threshold of limit N (N at least 1), a run of RecordSuccess calls
keeps the breaker HalfOpen with successes = k for every prefix of length k
strictly below N, and the prefix of length exactly N leaves the breaker
Closed with both counters reset to 0 and lastStateChange stamped with the
instant of that N-th call. -/
theorem half_open_closes_exactly_at_success_limit
    (cb : CircuitBreaker) (N : Int) (ts : List Int) (k : Nat)
    (hs : cb.state = StateHalfOpen) (hsc : cb.successes = 0)
    (ht : cb.successThreshold = .int64T ⟨N⟩)
    (hN : 1 ≤ N) (hk : k ≤ ts.length) :
    ((k : Int) < N →
      (recordSuccesses cb (ts.take k)).state = StateHalfOpen ∧
      (recordSuccesses cb (ts.take k)).successes = (k : Int) ∧
      (recordSuccesses cb (ts.take k)).lastStateChange =
        cb.lastStateChange) ∧
    ((k : Int) = N →
      (recordSuccesses cb (ts.take k)).state = StateClosed ∧
      (recordSuccesses cb (ts.take k)).failures = 0 ∧
      (recordSuccesses cb (ts.take k)).successes = 0 ∧
      ∃ hlt : k - 1 < ts.length,
        (recordSuccesses cb (ts.take k)).lastStateChange =
          ts.get ⟨k - 1, hlt⟩) := by
  have hlen : (ts.take k).length = k := by
    rw [List.length_take]
    exact min_eq_left hk
  constructor
  · intro hkN
    have hbelow := recordSuccesses_halfOpen_below N (ts.take k) cb hs ht
      (by rw [hsc, hlen]; simpa using hkN)
    refine ⟨hbelow.1, ?_, hbelow.2.2.2⟩
    rw [hbelow.2.1, hsc, hlen]
    ring
  · intro hkN
    have hk1 : 1 ≤ k := by omega
    have hlt : k - 1 < ts.length := by omega
    have hksplit : k = (k - 1) + 1 := by omega
    have htake : ts.take k = ts.take (k - 1) ++ [ts.get ⟨k - 1, hlt⟩] := by
      conv_lhs => rw [hksplit]
      rw [List.take_succ, List.getElem?_eq_getElem hlt]
      rfl
    have hbelow := recordSuccesses_halfOpen_below N (ts.take (k - 1)) cb hs ht
      (by
        rw [hsc, List.length_take, min_eq_left (by omega : k - 1 ≤ ts.length)]
        omega)
    have hfold : recordSuccesses cb (ts.take k) =
        RecordSuccess (recordSuccesses cb (ts.take (k - 1)))
          (ts.get ⟨k - 1, hlt⟩) := by
      rw [htake]
      simp only [recordSuccesses]
      rw [List.foldl_append]
      rfl
    have hstep := recordSuccess_halfOpen_int64
      (recordSuccesses cb (ts.take (k - 1))) N (ts.get ⟨k - 1, hlt⟩)
      hbelow.1 hbelow.2.2.1
    have hcond :
        N ≤ (recordSuccesses cb (ts.take (k - 1))).successes + 1 := by
      rw [hbelow.2.1, hsc, List.length_take,
        min_eq_left (by omega : k - 1 ≤ ts.length)]
      omega
    rw [if_pos hcond] at hstep
    rw [hfold, hstep]
    exact ⟨rfl, rfl, rfl, hlt, rfl⟩

/-- A HalfOpen breaker used to witness C5. -/
def halfOpenBreakerExample : CircuitBreaker :=
  { failures := 0, successes := 0, state := StateHalfOpen,
    lastStateChange := 10,
    failureThreshold := .int64T ⟨2⟩, successThreshold := .int64T ⟨2⟩,
    openedTimeout := 100 }

/-- Witness for C5: success limit 2, calls at instants 11 and 12; after the
prefix of length 2 the breaker is Closed with zero counters, stamped at 12. -/
theorem half_open_closes_exactly_at_success_limit_witness :
    (recordSuccesses halfOpenBreakerExample ([11, 12].take 2)).state =
      StateClosed ∧
    (recordSuccesses halfOpenBreakerExample ([11, 12].take 2)).failures
      = 0 ∧
    (recordSuccesses halfOpenBreakerExample ([11, 12].take 2)).successes
      = 0 ∧
    ∃ hlt : 2 - 1 < [(11 : Int), 12].length,
      (recordSuccesses halfOpenBreakerExample
        ([11, 12].take 2)).lastStateChange = [(11 : Int), 12].get ⟨2 - 1, hlt⟩ :=
  (half_open_closes_exactly_at_success_limit halfOpenBreakerExample 2
    [11, 12] 2 rfl rfl rfl (by decide) (by decide)).2 (by decide)

/-- The instants of the Check events of a sliding-window trace, in order. -/
def checkTimes (es : List SWEvent) : List Int :=
  es.filterMap (fun e =>
    match e with
    | .recordFailure _ => none
    | .check t => some t)

/-- No sliding-window event changes the configured window size. -/
theorem runSW_windowSize (sw : SlidingWindowThreshold) (es : List SWEvent) :
    (runSW sw es).windowSize = sw.windowSize := by
  induction es generalizing sw with
  | nil => rfl
  | cons e es ih =>
    simp only [runSW, List.foldl_cons]
    exact (ih (swStep sw e)).trans (by cases e <;> rfl)

/-- No sliding-window event changes the configured failure limit. -/
theorem runSW_maxFailures (sw : SlidingWindowThreshold) (es : List SWEvent) :
    (runSW sw es).maxFailures = sw.maxFailures := by
  induction es generalizing sw with
  | nil => rfl
  | cons e es ih =>
    simp only [runSW, List.foldl_cons]
    exact (ih (swStep sw e)).trans (by cases e <;> rfl)

/-- Through any event trace whose intermediate Check instants all lie at or
before c, the stored failureTimes agree, inside the trailing window ending
at c, with the full list of recorded instants: lazy pruning only ever drops
instants that are already outside that window. -/
theorem runSW_failureTimes_filter (es : List SWEvent)
    (sw : SlidingWindowThreshold) (c : Int)
    (hc : ∀ n ∈ checkTimes es, n ≤ c) :
    (runSW sw es).failureTimes.filter
      (fun t => c - sw.windowSize < t) =
    (sw.failureTimes ++ recordedTimes es).filter
      (fun t => c - sw.windowSize < t) := by
  induction es generalizing sw with
  | nil => simp [runSW, recordedTimes]
  | cons e es ih =>
    cases e with
    | recordFailure t =>
      have hck : checkTimes (SWEvent.recordFailure t :: es) = checkTimes es :=
        by simp [checkTimes, List.filterMap_cons]
      rw [hck] at hc
      have hwz : (sw.RecordFailure t).windowSize = sw.windowSize := rfl
      have hrec := ih (sw.RecordFailure t) hc
      rw [hwz] at hrec
      simp only [runSW, List.foldl_cons, swStep] at hrec ⊢
      rw [hrec]
      have hrt : recordedTimes (SWEvent.recordFailure t :: es) =
          t :: recordedTimes es := by
        simp [recordedTimes, List.filterMap_cons]
      rw [hrt]
      have happ : (sw.RecordFailure t).failureTimes ++ recordedTimes es =
          sw.failureTimes ++ (t :: recordedTimes es) := by
        simp [SlidingWindowThreshold.RecordFailure]
      rw [happ]
    | check n =>
      have hck : checkTimes (SWEvent.check n :: es) = n :: checkTimes es :=
        by simp [checkTimes, List.filterMap_cons]
      rw [hck] at hc
      have hn : n ≤ c := hc n (List.mem_cons_self n _)
      have hc' : ∀ m ∈ checkTimes es, m ≤ c := fun m hm =>
        hc m (List.mem_cons_of_mem n hm)
      have hwz : ((sw.Check GoValue.vNil n).2).windowSize = sw.windowSize :=
        rfl
      have hrec := ih ((sw.Check GoValue.vNil n).2) hc'
      rw [hwz] at hrec
      simp only [runSW, List.foldl_cons, swStep] at hrec ⊢
      rw [hrec]
      have hrt : recordedTimes (SWEvent.check n :: es) = recordedTimes es :=
        by simp [recordedTimes, List.filterMap_cons]
      rw [hrt]
      have hft : ((sw.Check GoValue.vNil n).2).failureTimes =
          sw.failureTimes.filter (fun t => decide (n - sw.windowSize < t)) :=
        rfl
      rw [hft]
      rw [List.filter_append, List.filter_append, List.filter_filter]
      have hcollapse :
          sw.failureTimes.filter
            (fun a => decide (c - sw.windowSize < a) &&
              decide (n - sw.windowSize < a)) =
          sw.failureTimes.filter
            (fun a => decide (c - sw.windowSize < a)) := by
        refine List.filter_congr ?_
        intro a _
        by_cases hca : c - sw.windowSize < a
        · have hna : n - sw.windowSize < a := by omega
          simp [hca, hna]
        · simp [hca]
      rw [hcollapse]

/-- Claim C3: for every interleaving of RecordFailure and Check events on a
freshly built sliding-window threshold whose Check instants never run
backwards past the final instant, the final Check answers true exactly when
the number of RecordFailure events lying strictly inside the trailing
windowSize before that Check meets maxFailures; recorded instants older than
the window never count, no matter how long ago the previous Check ran. -/
theorem sliding_window_check_counts_trailing_window
    (w m : Int) (name : String) (es : List SWEvent) (v : GoValue)
    (now : Int) (hc : ∀ n ∈ checkTimes es, n ≤ now) :
    ((runSW (NewSlidingWindowThreshold w m name) es).Check v now).1
      = true ↔
    m ≤ countInWindow es now w := by
  have hW := runSW_windowSize (NewSlidingWindowThreshold w m name) es
  have hM := runSW_maxFailures (NewSlidingWindowThreshold w m name) es
  have hfilter :=
    runSW_failureTimes_filter es (NewSlidingWindowThreshold w m name) now hc
  simp only [SlidingWindowThreshold.Check, decide_eq_true_eq]
  rw [hW, hM, hfilter]
  simp [countInWindow, NewSlidingWindowThreshold]

/-- Name tag used by the sliding-window example instances. -/
def swExampleName : String := "example-window"

/-- Witness for C3: window 50, limit 2, failures recorded at 0, 20 and 60
with an intermediate Check at 30; the Check at 65 sees exactly the two
failures at 20 and 60 inside (15, 65] and answers true. -/
theorem sliding_window_check_counts_trailing_window_witness :
    ((runSW (NewSlidingWindowThreshold 50 2 swExampleName)
      [SWEvent.recordFailure 0, SWEvent.recordFailure 20, SWEvent.check 30,
        SWEvent.recordFailure 60]).Check GoValue.vNil 65).1 = true :=
  (sliding_window_check_counts_trailing_window 50 2 swExampleName
    [SWEvent.recordFailure 0, SWEvent.recordFailure 20, SWEvent.check 30,
      SWEvent.recordFailure 60] GoValue.vNil 65 (by decide)).mpr (by decide)

/-- Claim C8: after any completed SlidingWindowThreshold.Check at instant
now, the stored failureTimes holds only instants strictly newer than
now - windowSize, and GetCurrentFailures — which reads the stored list
without pruning — observes exactly the surviving in-window count, so the
older entries are permanently gone. -/
theorem check_prunes_failure_times (sw : SlidingWindowThreshold)
    (v : GoValue) (now : Int) :
    (∀ t ∈ ((sw.Check v now).2).failureTimes, now - sw.windowSize < t) ∧
    ((sw.Check v now).2).GetCurrentFailures =
      ((sw.failureTimes.filter
        (fun t => decide (now - sw.windowSize < t))).length : Int) := by
  constructor
  · intro t htmem
    have hmem : t ∈ sw.failureTimes.filter
        (fun t => decide (now - sw.windowSize < t)) := htmem
    exact of_decide_eq_true (List.mem_filter.mp hmem).2
  · rfl

/-- A sliding-window threshold with one stale and two fresh entries, used to
witness C8 and C9. -/
def swPrunedExample : SlidingWindowThreshold :=
  { windowSize := 50, maxFailures := 2, name := swExampleName,
    failureTimes := [10, 60, 90] }

/-- Witness for C8: checking swPrunedExample at instant 100 keeps the entry
at 60 only because it is strictly inside the window, and GetCurrentFailures
afterwards reports the pruned in-window count. -/
theorem check_prunes_failure_times_witness :
    100 - swPrunedExample.windowSize < 60 ∧
    ((swPrunedExample.Check GoValue.vNil 100).2).GetCurrentFailures =
      ((swPrunedExample.failureTimes.filter
        (fun t => decide (100 - swPrunedExample.windowSize < t))).length :
          Int) :=
  ⟨(check_prunes_failure_times swPrunedExample GoValue.vNil 100).1 60
      (by decide),
    (check_prunes_failure_times swPrunedExample GoValue.vNil 100).2⟩

/-- Claim C9: Int64Threshold.Check answers false on every input that is
neither an int nor an int64; Float64Threshold.Check answers false on every
input that is none of float64, float32, int, int64; and
SlidingWindowThreshold.Check never inspects its input at all — its answer
and its mutation are identical for every pair of input values, so no input
kind can make any shipped threshold error (all three Check functions are
total in the model, mirroring type switches that cannot panic). -/
theorem thresholds_fail_closed_on_unrecognized
    (ti : Int64Threshold) (tf : Float64Threshold)
    (sw : SlidingWindowThreshold) (v v' : GoValue) (now : Int) :
    ((∀ n : Int, v ≠ .vInt n ∧ v ≠ .vInt64 n) → ti.Check v = false) ∧
    ((∀ n : Int, v ≠ .vInt n ∧ v ≠ .vInt64 n) →
      (∀ x : Rat, v ≠ .vFloat64 x ∧ v ≠ .vFloat32 x) →
      tf.Check v = false) ∧
    sw.Check v now = sw.Check v' now := by
  refine ⟨?_, ?_, rfl⟩
  · intro hv
    cases v with
    | vInt n => exact absurd rfl (hv n).1
    | vInt64 n => exact absurd rfl (hv n).2
    | vFloat64 x => rfl
    | vFloat32 x => rfl
    | vString s => rfl
    | vNil => rfl
    | vStruct a b c => rfl
  · intro hv hx
    cases v with
    | vInt n => exact absurd rfl (hv n).1
    | vInt64 n => exact absurd rfl (hv n).2
    | vFloat64 x => exact absurd rfl (hx x).1
    | vFloat32 x => exact absurd rfl (hx x).2
    | vString s => rfl
    | vNil => rfl
    | vStruct a b c => rfl

/-- Witness for C9: the composite struct snapshot (the value the breaker
passes to thresholds of unrecognized kind) yields false from both numeric
thresholds, and the sliding window answers the same on it as on nil. -/
theorem thresholds_fail_closed_on_unrecognized_witness :
    Int64Threshold.Check ⟨3⟩ (GoValue.vStruct 1 2 3) = false ∧
    Float64Threshold.Check ⟨(1 : Rat)⟩ (GoValue.vStruct 1 2 3) = false ∧
    SlidingWindowThreshold.Check swPrunedExample (GoValue.vStruct 1 2 3)
      100 =
      SlidingWindowThreshold.Check swPrunedExample GoValue.vNil 100 :=
  ⟨(thresholds_fail_closed_on_unrecognized ⟨3⟩ ⟨(1 : Rat)⟩ swPrunedExample
      (GoValue.vStruct 1 2 3) GoValue.vNil 100).1
      (fun n => ⟨fun h => GoValue.noConfusion h,
        fun h => GoValue.noConfusion h⟩),
    (thresholds_fail_closed_on_unrecognized ⟨3⟩ ⟨(1 : Rat)⟩ swPrunedExample
      (GoValue.vStruct 1 2 3) GoValue.vNil 100).2.1
      (fun n => ⟨fun h => GoValue.noConfusion h,
        fun h => GoValue.noConfusion h⟩)
      (fun x => ⟨fun h => GoValue.noConfusion h,
        fun h => GoValue.noConfusion h⟩),
    (thresholds_fail_closed_on_unrecognized ⟨3⟩ ⟨(1 : Rat)⟩ swPrunedExample
      (GoValue.vStruct 1 2 3) GoValue.vNil 100).2.2⟩

end CircuitBreakerModel
